import Mathlib

/-!
Verification of the StarkMatter paper-trading engine, portfolio valuator and
technical-signal detector.

The development shallowly embeds the Python sources:

* `src/api/services/paper_trading.py` — `PaperTradingEngine`:
  `place_order`, `_execute_buy`, `_execute_sell`, `_log_trade`,
  `get_performance`, `reset_account`, `get_current_price`, `get_position`.
* `src/api/services/portfolio.py` — `PortfolioService.calculate_position_value`.
* `src/api/services/technical_analysis.py` — the signal-assembly part of
  `TechnicalAnalysisService.find_signals` (RSI / MACD / SMA-cross / Bollinger
  blocks over the latest and previous indicator rows).

Modelling conventions:

* Money, prices and position quantities are rationals (`ℚ`); order quantities
  are integers (`ℤ`), matching the `quantity: int` signature of `place_order`.
* The SQLite tables become explicit state: the `paper_account` singleton row is
  `balance`/`starting_balance`, the `positions` table is an association list
  keyed by symbol, the `trades` table is an append-only list.
* The market-data store is abstracted to its derived "latest close per symbol"
  map (`SELECT close ... ORDER BY date DESC LIMIT 1`), an association list.
* Python float truthiness (`if not current_price:` treats both `None` and
  `0.0` as falsy) is modelled explicitly wherever the source relies on it.
-/

namespace StarkMatter

/-- Row of the `positions` table: quantity held and weighted-average cost. -/
structure Position where
  quantity : ℚ
  average_cost : ℚ
deriving DecidableEq, Repr

/-- Row of the `trades` table, as written by `PaperTradingEngine._log_trade`
(which always sets `paper_trade = 1`). -/
structure TradeRecord where
  symbol : String
  action : String
  quantity : ℤ
  price : ℚ
  balance_after : ℚ
  paper_trade : Bool
deriving DecidableEq, Repr

/-- Mutable state touched by the paper-trading engine: the singleton
`paper_account` row (balance, starting_balance), the `positions` table and the
`trades` table. -/
structure TradingState where
  balance : ℚ
  starting_balance : ℚ
  positions : List (String × Position)
  trades : List TradeRecord
deriving DecidableEq, Repr

/-- Market-data store abstracted to the latest stored close per symbol. -/
abbrev MarketData := List (String × ℚ)

/-- Association-list lookup used to model `SELECT ... WHERE symbol = ?`. -/
def lookupPos : List (String × Position) → String → Option Position
  | [], _ => none
  | q :: tl, sym => if q.1 == sym then some q.2 else lookupPos tl sym

/-- Lookup of the latest close for a symbol in the market-data store. -/
def lookupPrice : MarketData → String → Option ℚ
  | [], _ => none
  | q :: tl, sym => if q.1 == sym then some q.2 else lookupPrice tl sym

/-- `PaperTradingEngine.get_current_price`: latest close for `symbol`, `none`
when the symbol has no market-data rows. -/
def get_current_price (market : MarketData) (symbol : String) : Option ℚ :=
  lookupPrice market symbol

/-- `PaperTradingEngine.get_position`: the `positions` row for `symbol`. -/
def get_position (s : TradingState) (symbol : String) : Option Position :=
  lookupPos s.positions symbol

/-- `PaperTradingEngine.update_balance`: `UPDATE paper_account SET balance = ?`. -/
def update_balance (s : TradingState) (new_balance : ℚ) : TradingState :=
  { s with balance := new_balance }

/-- SQL `UPDATE positions SET quantity = ?, average_cost = ? WHERE symbol = ?`
(the BUY path): every row keyed by `symbol` gets the new quantity and cost. -/
def setPositionAll (l : List (String × Position)) (symbol : String)
    (p : Position) : List (String × Position) :=
  l.map (fun q => if q.1 == symbol then (q.1, p) else q)

/-- SQL `UPDATE positions SET quantity = ? WHERE symbol = ?` (the SELL path):
only the quantity column changes, `average_cost` is untouched. -/
def setPositionQty (l : List (String × Position)) (symbol : String)
    (new_qty : ℚ) : List (String × Position) :=
  l.map (fun q => if q.1 == symbol then (q.1, ⟨new_qty, q.2.average_cost⟩) else q)

/-- SQL `DELETE FROM positions WHERE symbol = ?`. -/
def deletePosition (l : List (String × Position)) (symbol : String) :
    List (String × Position) :=
  l.filter (fun q => q.1 != symbol)

/-- `PaperTradingEngine._log_trade`: appends a `trades` row with
`paper_trade = 1`. -/
def _log_trade (s : TradingState) (symbol action : String) (quantity : ℤ)
    (price balance_after : ℚ) : TradingState :=
  { s with trades := s.trades ++ [⟨symbol, action, quantity, price, balance_after, true⟩] }

/-- Result dictionary of `place_order`, as a discriminated sum.  Error
constructors carry the data interpolated into the source's message strings. -/
inductive OrderResult where
  | noPriceData (symbol : String)
  | invalidOrderType (order_type : String)
  | insufficientFunds (need has : ℚ)
  | noPosition (symbol : String)
  | insufficientShares (held : ℚ) (requested : ℤ)
  | buySuccess (symbol : String) (quantity : ℤ) (price total_cost balance_after : ℚ)
  | sellSuccess (symbol : String) (quantity : ℤ)
      (price total_proceeds balance_after realized_pl realized_pl_pct : ℚ)
deriving DecidableEq, Repr

/-- `PaperTradingEngine._execute_buy`.  Cost check, balance debit, position
upsert (weighted-average cost on an existing row), trade log. -/
def _execute_buy (s : TradingState) (symbol : String) (quantity : ℤ)
    (price balance : ℚ) : OrderResult × TradingState :=
  let cost : ℚ := quantity * price
  if cost > balance then
    (.insufficientFunds cost balance, s)
  else
    let new_balance := balance - cost
    let s1 := update_balance s new_balance
    let s2 :=
      match get_position s symbol with
      | some position =>
          let old_qty := position.quantity
          let old_avg := position.average_cost
          let new_qty := old_qty + quantity
          let new_avg := ((old_qty * old_avg) + cost) / new_qty
          { s1 with positions := setPositionAll s1.positions symbol ⟨new_qty, new_avg⟩ }
      | none =>
          { s1 with positions := s1.positions ++ [(symbol, ⟨(quantity : ℚ), price⟩)] }
    let s3 := _log_trade s2 symbol "BUY" quantity price new_balance
    (.buySuccess symbol quantity price cost new_balance, s3)

/-- `PaperTradingEngine._execute_sell`.  Position and share checks, balance
credit, quantity reduction (row deleted when the remaining quantity is exactly
zero), trade log, realized-P&L computation from the pre-sell snapshot. -/
def _execute_sell (s : TradingState) (symbol : String) (quantity : ℤ)
    (price balance : ℚ) : OrderResult × TradingState :=
  match get_position s symbol with
  | none => (.noPosition symbol, s)
  | some position =>
    if (quantity : ℚ) > position.quantity then
      (.insufficientShares position.quantity quantity, s)
    else
      let proceeds : ℚ := quantity * price
      let new_balance := balance + proceeds
      let s1 := update_balance s new_balance
      let new_qty := position.quantity - quantity
      let s2 :=
        if new_qty = 0 then
          { s1 with positions := deletePosition s1.positions symbol }
        else
          { s1 with positions := setPositionQty s1.positions symbol new_qty }
      let s3 := _log_trade s2 symbol "SELL" quantity price new_balance
      let cost_basis := (quantity : ℚ) * position.average_cost
      let realized_pl := proceeds - cost_basis
      let realized_pl_pct := if cost_basis > 0 then (realized_pl / cost_basis) * 100 else 0
      (.sellSuccess symbol quantity price proceeds new_balance realized_pl realized_pl_pct, s3)

/-- Python's `str.upper()` restricted to the ASCII range, as applied to the
`order_type` argument (a structurally recursive variant of `String.toUpper`,
so that proofs can evaluate it). -/
def upper (s : String) : String :=
  ⟨s.data.map Char.toUpper⟩

/-- `PaperTradingEngine.place_order`.  Python's `if not current_price:` treats
both a missing row and a stored close of exactly `0.0` as "no price data". -/
def place_order (market : MarketData) (s : TradingState) (symbol : String)
    (quantity : ℤ) (order_type : String) : OrderResult × TradingState :=
  match get_current_price market symbol with
  | none => (.noPriceData symbol, s)
  | some current_price =>
    if current_price = 0 then (.noPriceData symbol, s)
    else
      let balance := s.balance
      if upper order_type = "BUY" then
        _execute_buy s symbol quantity current_price balance
      else if upper order_type = "SELL" then
        _execute_sell s symbol quantity current_price balance
      else
        (.invalidOrderType order_type, s)

/-- Return record of `PaperTradingEngine.get_performance`. -/
structure Performance where
  starting_balance : ℚ
  cash_balance : ℚ
  positions_value : ℚ
  total_value : ℚ
  total_return : ℚ
  return_pct : ℚ
  num_positions : ℕ
deriving DecidableEq, Repr

/-- `PaperTradingEngine.get_performance`.  The loop `if current_price:
positions_value += quantity * current_price` skips a position whose symbol has
no market-data row or whose latest close is `0.0` (float truthiness). -/
def get_performance (market : MarketData) (s : TradingState) : Performance :=
  let cash_balance := s.balance
  let starting_balance := s.starting_balance
  let positions_value := s.positions.foldl
    (fun acc p =>
      match get_current_price market p.1 with
      | some price => if price ≠ 0 then acc + p.2.quantity * price else acc
      | none => acc) 0
  let total_value := cash_balance + positions_value
  let total_return := total_value - starting_balance
  let return_pct := if starting_balance > 0 then (total_return / starting_balance) * 100 else 0
  ⟨starting_balance, cash_balance, positions_value, total_value, total_return,
    return_pct, s.positions.length⟩

/-- `PaperTradingEngine.reset_account`: clears `positions`, deletes the
`trades` rows with `paper_trade = 1`, and sets both `balance` and
`starting_balance` of the account row to the argument. -/
def reset_account (s : TradingState) (starting_balance : ℚ) : TradingState :=
  { balance := starting_balance
    starting_balance := starting_balance
    positions := []
    trades := s.trades.filter (fun t => !t.paper_trade) }

/-- Return record of `PortfolioService.calculate_position_value`. -/
structure PositionValue where
  symbol : String
  quantity : ℚ
  average_cost : ℚ
  current_price : ℚ
  cost_basis : ℚ
  market_value : ℚ
  unrealized_pl : ℚ
  unrealized_pl_pct : ℚ
deriving DecidableEq, Repr

/-- `PortfolioService.calculate_position_value`.  When there is no truthy
current price (`if not current_price:`), `average_cost` is substituted as the
current price, so the unrealized P&L degrades to zero. -/
def calculate_position_value (market : MarketData)
    (positions : List (String × Position)) (symbol : String) :
    Option PositionValue :=
  match lookupPos positions symbol with
  | none => none
  | some position =>
    let current_price :=
      match lookupPrice market symbol with
      | none => position.average_cost
      | some p => if p = 0 then position.average_cost else p
    let market_value := position.quantity * current_price
    let cost_basis := position.quantity * position.average_cost
    let unrealized_pl := market_value - cost_basis
    let unrealized_pl_pct := if cost_basis > 0 then (unrealized_pl / cost_basis) * 100 else 0
    some ⟨symbol, position.quantity, position.average_cost, current_price,
      cost_basis, market_value, unrealized_pl, unrealized_pl_pct⟩

/-! Signal detector (`TechnicalAnalysisService.find_signals`). The pipeline
from OHLCV bars to indicator columns is pandas/ta code; the verified part is
the signal-assembly logic over the latest (and previous) indicator row at
`technical_analysis.py:160-262`. Missing indicator columns or a missing
previous bar appear as `none`; Python float truthiness (`if rsi and ...`,
`if bb_upper and bb_lower:`) is modelled as "present and nonzero". -/

/-- Signal direction (`type` field of the signal dictionary). -/
inductive SignalType where
  | BUY
  | SELL
deriving DecidableEq, Repr

/-- Indicator tags emitted by `find_signals`. -/
inductive IndicatorTag where
  | RSI_OVERSOLD
  | RSI_OVERBOUGHT
  | MACD_CROSS_BULLISH
  | MACD_CROSS_BEARISH
  | MA_GOLDEN_CROSS
  | MA_DEATH_CROSS
  | BB_OVERSOLD
  | BB_OVERBOUGHT
deriving DecidableEq, Repr

/-- Signal dictionary appended by `find_signals`. -/
structure Signal where
  type : SignalType
  indicator : IndicatorTag
  strength : ℚ
  value : ℚ
deriving DecidableEq, Repr

/-- Indicator values of one dataframe row, as read by `find_signals`:
`rsi` is `momentum_rsi`/`rsi`, `macd`/`macd_signal` the MACD line and its
signal line, `bb_upper`/`bb_lower` the Bollinger bands.  `close` is always
present in a market-data row. -/
structure IndicatorRow where
  rsi : Option ℚ
  macd : Option ℚ
  macd_signal : Option ℚ
  sma_20 : Option ℚ
  sma_50 : Option ℚ
  bb_upper : Option ℚ
  bb_lower : Option ℚ
  close : ℚ
deriving DecidableEq, Repr

/-- RSI block of `find_signals`: `if rsi and rsi < 30: ... elif rsi and
rsi > 70: ...`.  The truthiness conjunct makes an RSI of exactly `0.0`
emit nothing. -/
def rsiSignals (latest : IndicatorRow) : List Signal :=
  match latest.rsi with
  | none => []
  | some rsi =>
    if rsi ≠ 0 ∧ rsi < 30 then
      [⟨.BUY, .RSI_OVERSOLD, (30 - rsi) / 30 * 100, rsi⟩]
    else if rsi ≠ 0 ∧ rsi > 70 then
      [⟨.SELL, .RSI_OVERBOUGHT, (rsi - 70) / 30 * 100, rsi⟩]
    else []

/-- MACD block of `find_signals`: crossover of the MACD line against its
signal line between the previous and latest bar, fixed strength 75, guarded
by truthiness of all four values. -/
def macdSignals (latest : IndicatorRow) (previous : Option IndicatorRow) : List Signal :=
  match previous with
  | none => []
  | some prev =>
    match latest.macd, latest.macd_signal, prev.macd, prev.macd_signal with
    | some mc, some sc, some mp, some sp =>
      if mc ≠ 0 ∧ sc ≠ 0 ∧ mp ≠ 0 ∧ sp ≠ 0 then
        if mc > sc ∧ mp ≤ sp then
          [⟨.BUY, .MACD_CROSS_BULLISH, 75, mc - sc⟩]
        else if mc < sc ∧ mp ≥ sp then
          [⟨.SELL, .MACD_CROSS_BEARISH, 75, sc - mc⟩]
        else []
      else []
    | _, _, _, _ => []

/-- Moving-average block of `find_signals`: golden/death cross of SMA20
against SMA50, fixed strength 80, guarded by truthiness of all four values. -/
def maSignals (latest : IndicatorRow) (previous : Option IndicatorRow) : List Signal :=
  match previous with
  | none => []
  | some prev =>
    match latest.sma_20, latest.sma_50, prev.sma_20, prev.sma_50 with
    | some s20, some s50, some p20, some p50 =>
      if s20 ≠ 0 ∧ s50 ≠ 0 ∧ p20 ≠ 0 ∧ p50 ≠ 0 then
        if s20 > s50 ∧ p20 ≤ p50 then
          [⟨.BUY, .MA_GOLDEN_CROSS, 80, s20 - s50⟩]
        else if s20 < s50 ∧ p20 ≥ p50 then
          [⟨.SELL, .MA_DEATH_CROSS, 80, s50 - s20⟩]
        else []
      else []
    | _, _, _, _ => []

/-- Bollinger block of `find_signals`: `if close <= bb_lower * 1.01` emits a
BUY with fixed `strength` 65 and `value = (bb_lower - close)/bb_lower*100`;
`elif close >= bb_upper * 0.99` emits a SELL with `strength` 65 and
`value = (close - bb_upper)/bb_upper*100`; guarded by `if bb_upper and
bb_lower:`. -/
def bbSignals (latest : IndicatorRow) : List Signal :=
  match latest.bb_upper, latest.bb_lower with
  | some bb_upper, some bb_lower =>
    if bb_upper ≠ 0 ∧ bb_lower ≠ 0 then
      if latest.close ≤ bb_lower * 1.01 then
        [⟨.BUY, .BB_OVERSOLD, 65, (bb_lower - latest.close) / bb_lower * 100⟩]
      else if latest.close ≥ bb_upper * 0.99 then
        [⟨.SELL, .BB_OVERBOUGHT, 65, (latest.close - bb_upper) / bb_upper * 100⟩]
      else []
    else []
  | _, _ => []

/-- Signal-assembly logic of `TechnicalAnalysisService.find_signals` over the
latest and (optional) previous indicator rows, in the source's insertion
order: RSI, MACD, moving averages, Bollinger bands. -/
def find_signals (latest : IndicatorRow) (previous : Option IndicatorRow) : List Signal :=
  rsiSignals latest ++ macdSignals latest previous ++ maSignals latest previous
    ++ bbSignals latest

/-- Contribution of one position row to `get_performance`'s `positions_value`:
`quantity × current_price` when a truthy price exists, otherwise `0` (the row
is skipped by the `if current_price:` guard). -/
def perfContribution (market : MarketData) (p : String × Position) : ℚ :=
  match get_current_price market p.1 with
  | some price => if price ≠ 0 then p.2.quantity * price else 0
  | none => 0

/-- Invariant of the `positions` table: every stored row has a strictly
positive quantity (a row brought to quantity zero is deleted instead). -/
def positionsPositive (s : TradingState) : Prop :=
  ∀ p ∈ s.positions, 0 < p.2.quantity

/-- Classification of `place_order` outcomes as a state-precondition
rejection: no price data, insufficient funds, no position, or insufficient
shares. -/
def isRejection : OrderResult → Bool
  | .noPriceData _ => true
  | .insufficientFunds _ _ => true
  | .noPosition _ => true
  | .insufficientShares _ _ => true
  | _ => false

/-! Helper lemmas about the association-list model of the `positions` table. -/

theorem lookupPos_setPositionAll (l : List (String × Position)) (symbol : String)
    (p : Position) :
    lookupPos (setPositionAll l symbol p) symbol =
      (lookupPos l symbol).map (fun _ => p) := by
  induction l with
  | nil => rfl
  | cons hd tl ih =>
    by_cases h : hd.1 == symbol
    · simp [setPositionAll, lookupPos, h]
    · simpa [setPositionAll, lookupPos, h] using ih

theorem lookupPos_setPositionQty (l : List (String × Position)) (symbol : String)
    (new_qty : ℚ) :
    lookupPos (setPositionQty l symbol new_qty) symbol =
      (lookupPos l symbol).map (fun pos => ⟨new_qty, pos.average_cost⟩) := by
  induction l with
  | nil => rfl
  | cons hd tl ih =>
    by_cases h : hd.1 == symbol
    · simp [setPositionQty, lookupPos, h]
    · simpa [setPositionQty, lookupPos, h] using ih

theorem lookupPos_deletePosition (l : List (String × Position)) (symbol : String) :
    lookupPos (deletePosition l symbol) symbol = none := by
  induction l with
  | nil => rfl
  | cons hd tl ih =>
    by_cases h : hd.1 == symbol
    · simpa [deletePosition, List.filter_cons, bne, h] using ih
    · simpa [deletePosition, lookupPos, List.filter_cons, bne, h] using ih

theorem lookupPos_mem (l : List (String × Position)) (symbol : String)
    (pos : Position) (h : lookupPos l symbol = some pos) : ∃ k, (k, pos) ∈ l := by
  induction l with
  | nil => simp [lookupPos] at h
  | cons hd tl ih =>
    by_cases hh : hd.1 == symbol
    · simp only [lookupPos, hh, if_true, Option.some.injEq] at h
      exact ⟨hd.1, by simp [← h]⟩
    · simp only [lookupPos, hh, Bool.false_eq_true, if_false] at h
      obtain ⟨k, hk⟩ := ih h
      exact ⟨k, List.mem_cons_of_mem _ hk⟩

theorem mem_setPositionAll {l : List (String × Position)} {symbol : String}
    {p : Position} {q : String × Position} (h : q ∈ setPositionAll l symbol p) :
    q ∈ l ∨ q.2 = p := by
  obtain ⟨r, hr, hq⟩ := List.mem_map.mp h
  by_cases hk : r.1 == symbol
  · right
    simp [hk] at hq
    simp [← hq]
  · left
    simp [hk] at hq
    simpa [hq] using hr

theorem mem_setPositionQty {l : List (String × Position)} {symbol : String}
    {new_qty : ℚ} {q : String × Position} (h : q ∈ setPositionQty l symbol new_qty) :
    q ∈ l ∨ q.2.quantity = new_qty := by
  obtain ⟨r, hr, hq⟩ := List.mem_map.mp h
  by_cases hk : r.1 == symbol
  · right
    simp [hk] at hq
    simp [← hq]
  · left
    simp [hk] at hq
    simpa [hq] using hr

theorem mem_deletePosition {l : List (String × Position)} {symbol : String}
    {q : String × Position} (h : q ∈ deletePosition l symbol) : q ∈ l :=
  (List.mem_filter.mp h).1

theorem get_performance_foldl (market : MarketData) (l : List (String × Position))
    (a : ℚ) :
    l.foldl (fun acc p =>
      match get_current_price market p.1 with
      | some price => if price ≠ 0 then acc + p.2.quantity * price else acc
      | none => acc) a = a + (l.map (perfContribution market)).sum := by
  induction l generalizing a with
  | nil => simp
  | cons hd tl ih =>
    simp only [List.foldl_cons, List.map_cons, List.sum_cons, ih]
    rcases h : get_current_price market hd.1 with _ | price
    · simp [perfContribution, h]
    · by_cases hz : price ≠ 0
      · simp [perfContribution, h, hz]; ring
      · simp [perfContribution, h, hz]

theorem upper_buy : upper "BUY" = "BUY" := by decide

theorem upper_sell : upper "SELL" = "SELL" := by decide

/-- C1: starting from a cash account at 10000 with no position, a successful
BUY of 10 shares at price 100 followed by a successful SELL of 10 shares at
price 110 leaves the balance at exactly 10100, leaves no position row for the
symbol, and the SELL result reports `realized_pl = 100`; and in general every
successful sell reports `realized_pl = proceeds - quantity *
average_cost_before_sell`. -/
theorem balance_conservation_buy_sell :
    ((place_order [("AAPL", 100)] ⟨10000, 10000, [], []⟩ "AAPL" 10 "BUY").1 =
        .buySuccess "AAPL" 10 100 1000 9000 ∧
      (place_order [("AAPL", 110)]
          (place_order [("AAPL", 100)] ⟨10000, 10000, [], []⟩ "AAPL" 10 "BUY").2
          "AAPL" 10 "SELL").2.balance = 10100 ∧
      get_position
        (place_order [("AAPL", 110)]
          (place_order [("AAPL", 100)] ⟨10000, 10000, [], []⟩ "AAPL" 10 "BUY").2
          "AAPL" 10 "SELL").2 "AAPL" = none ∧
      (place_order [("AAPL", 110)]
          (place_order [("AAPL", 100)] ⟨10000, 10000, [], []⟩ "AAPL" 10 "BUY").2
          "AAPL" 10 "SELL").1 =
        .sellSuccess "AAPL" 10 110 1100 10100 100 10) ∧
    ∀ (s : TradingState) (symbol : String) (quantity : ℤ) (price balance : ℚ)
      (position : Position), get_position s symbol = some position →
      ¬((quantity : ℚ) > position.quantity) →
      ∃ pct, (_execute_sell s symbol quantity price balance).1 =
        .sellSuccess symbol quantity price ((quantity : ℚ) * price)
          (balance + (quantity : ℚ) * price)
          ((quantity : ℚ) * price - (quantity : ℚ) * position.average_cost) pct := by
  constructor
  · have hne : ("SELL" : String) = "BUY" ↔ False := iff_false_intro (by decide)
    refine ⟨?_, ?_, ?_, ?_⟩ <;>
      norm_num [place_order, _execute_buy, _execute_sell, get_current_price, lookupPrice,
        get_position, lookupPos, update_balance, _log_trade, setPositionAll, setPositionQty,
        deletePosition, upper_buy, upper_sell, hne]
  · intro s symbol quantity price balance position hpos hqty
    unfold _execute_sell
    rw [hpos]
    simp only [if_neg hqty]
    exact ⟨_, rfl⟩

/-- C1 witness: the general realized-P&L law applied to a concrete sell of
2 shares at price 30 from a position of 5 shares at average cost 20. -/
theorem balance_conservation_buy_sell_witness :
    ∃ pct, (_execute_sell ⟨100, 100, [("AAPL", ⟨5, 20⟩)], []⟩ "AAPL" 2 30 100).1 =
      .sellSuccess "AAPL" 2 30 (((2 : ℤ) : ℚ) * 30) (100 + ((2 : ℤ) : ℚ) * 30)
        (((2 : ℤ) : ℚ) * 30 - ((2 : ℤ) : ℚ) * 20) pct :=
  balance_conservation_buy_sell.2 ⟨100, 100, [("AAPL", ⟨5, 20⟩)], []⟩ "AAPL" 2 30 100
    ⟨5, 20⟩ rfl (by norm_num)

/-- C2: a `place_order` call that fails with a state-precondition rejection
(no price data, insufficient funds, no position, or insufficient shares)
returns the state unchanged: cash balance, every position row and the trade
log are identical before and after. -/
theorem place_order_rejection_preserves_state (market : MarketData)
    (s : TradingState) (symbol : String) (quantity : ℤ) (order_type : String)
    (h : isRejection (place_order market s symbol quantity order_type).1 = true) :
    (place_order market s symbol quantity order_type).2 = s := by
  unfold place_order at h ⊢
  rcases hp : get_current_price market symbol with _ | price
  · simp [hp]
  · simp only [hp] at h ⊢
    by_cases hz : price = 0
    · simp [hz]
    · simp only [if_neg hz] at h ⊢
      by_cases hb : upper order_type = "BUY"
      · rw [if_pos hb] at h ⊢
        unfold _execute_buy at h ⊢
        by_cases hc : (quantity : ℚ) * price > s.balance
        · simp [hc]
        · simp only [if_neg hc] at h
          simp [isRejection] at h
      · rw [if_neg hb] at h ⊢
        by_cases hs : upper order_type = "SELL"
        · rw [if_pos hs] at h ⊢
          unfold _execute_sell at h ⊢
          rcases hpos : get_position s symbol with _ | position
          · simp [hpos]
          · simp only [hpos] at h ⊢
            by_cases hq : (quantity : ℚ) > position.quantity
            · simp [hq]
            · simp only [if_neg hq] at h
              simp [isRejection] at h
        · rw [if_neg hs] at h ⊢

/-- C2 witness: an order on a symbol with no market data is rejected with no
price data and leaves the concrete state untouched. -/
theorem place_order_rejection_preserves_state_witness :
    (place_order [] ⟨10000, 10000, [], []⟩ "AAPL" 5 "BUY").2 =
      (⟨10000, 10000, [], []⟩ : TradingState) :=
  place_order_rejection_preserves_state [] ⟨10000, 10000, [], []⟩ "AAPL" 5 "BUY" rfl

/-- C3 (code evaluated at the failing input): `place_order` performs no
quantity validation.  A BUY of 0 shares succeeds, inserts a quantity-0
position row and writes a trade-log entry; a BUY of -5 shares succeeds and
credits the account with the negative cost. -/
theorem place_order_zero_quantity_not_rejected :
    place_order [("AAPL", 100)] ⟨10000, 10000, [], []⟩ "AAPL" 0 "BUY"
      = (.buySuccess "AAPL" 0 100 0 10000,
         ⟨10000, 10000, [("AAPL", ⟨0, 100⟩)], [⟨"AAPL", "BUY", 0, 100, 10000, true⟩]⟩) ∧
    place_order [("AAPL", 100)] ⟨10000, 10000, [], []⟩ "AAPL" (-5) "BUY"
      = (.buySuccess "AAPL" (-5) 100 (-500) 10500,
         ⟨10500, 10000, [("AAPL", ⟨-5, 100⟩)], [⟨"AAPL", "BUY", -5, 100, 10500, true⟩]⟩) := by
  constructor <;>
    norm_num [place_order, _execute_buy, get_current_price, lookupPrice, get_position,
      lookupPos, update_balance, _log_trade, upper_buy, Prod.ext_iff]

/-- C9: `reset_account` clears the positions table, deletes exactly the
trade-log rows flagged as paper trades, sets both `balance` and
`starting_balance` to the argument, and calling `reset_account 10000` twice
in a row yields the same final state both times. -/
theorem reset_account_semantics_idempotent (s : TradingState) (sb : ℚ) :
    (reset_account s sb).balance = sb ∧
    (reset_account s sb).starting_balance = sb ∧
    (reset_account s sb).positions = [] ∧
    (reset_account s sb).trades = s.trades.filter (fun t => !t.paper_trade) ∧
    (∀ t ∈ (reset_account s sb).trades, t.paper_trade = false) ∧
    reset_account (reset_account s 10000) 10000 = reset_account s 10000 := by
  refine ⟨rfl, rfl, rfl, rfl, ?_, ?_⟩
  · intro t ht
    have := (List.mem_filter.mp ht).2
    simpa using this
  · simp [reset_account, List.filter_filter]

/-- C4: on every successful BUY into an existing position the new average
cost is the weighted mean `(old_qty * old_avg + quantity * price) / (old_qty +
quantity)`; two successive BUYs of 5 shares at price 50 starting from no
position yield quantity 10 at average cost exactly 50; and a successful
partial SELL changes only the quantity, never the average cost. -/
theorem average_cost_update_law :
    (∀ (s : TradingState) (symbol : String) (quantity : ℤ) (price balance : ℚ)
       (position : Position), get_position s symbol = some position →
       ¬((quantity : ℚ) * price > balance) →
       get_position (_execute_buy s symbol quantity price balance).2 symbol =
         some ⟨position.quantity + (quantity : ℚ),
           ((position.quantity * position.average_cost) + (quantity : ℚ) * price) /
             (position.quantity + (quantity : ℚ))⟩) ∧
    (get_position
        (place_order [("AAPL", 50)]
          (place_order [("AAPL", 50)] ⟨10000, 10000, [], []⟩ "AAPL" 5 "BUY").2
          "AAPL" 5 "BUY").2 "AAPL" = some ⟨10, 50⟩) ∧
    (∀ (s : TradingState) (symbol : String) (quantity : ℤ) (price balance : ℚ)
       (position : Position), get_position s symbol = some position →
       ¬((quantity : ℚ) > position.quantity) →
       position.quantity - (quantity : ℚ) ≠ 0 →
       get_position (_execute_sell s symbol quantity price balance).2 symbol =
         some ⟨position.quantity - (quantity : ℚ), position.average_cost⟩) := by
  refine ⟨?_, ?_, ?_⟩
  · intro s symbol quantity price balance position hpos hcost
    have hpos' : lookupPos s.positions symbol = some position := hpos
    simp only [_execute_buy, hpos', if_neg hcost, _log_trade, update_balance, get_position]
    rw [lookupPos_setPositionAll, hpos']
    rfl
  · norm_num [place_order, _execute_buy, get_current_price, lookupPrice, get_position,
      lookupPos, update_balance, _log_trade, setPositionAll, upper_buy]
  · intro s symbol quantity price balance position hpos hqty hnz
    have hpos' : lookupPos s.positions symbol = some position := hpos
    simp only [_execute_sell, hpos', if_neg hqty, if_neg hnz, _log_trade, update_balance,
      get_position]
    rw [lookupPos_setPositionQty, hpos']
    rfl

/-- C4 witness: the average-cost law applied to buying 6 shares at price 20
into a position of 4 shares at average cost 10. -/
theorem average_cost_update_law_witness :
    get_position (_execute_buy ⟨1000, 1000, [("AAPL", ⟨4, 10⟩)], []⟩ "AAPL" 6 20 1000).2
        "AAPL" =
      some ⟨(4 : ℚ) + ((6 : ℤ) : ℚ),
        (((4 : ℚ) * 10) + ((6 : ℤ) : ℚ) * 20) / ((4 : ℚ) + ((6 : ℤ) : ℚ))⟩ :=
  average_cost_update_law.1 ⟨1000, 1000, [("AAPL", ⟨4, 10⟩)], []⟩ "AAPL" 6 20 1000 ⟨4, 10⟩
    rfl (by norm_num)

theorem execute_buy_preserves_positive (s : TradingState) (symbol : String)
    (quantity : ℤ) (price balance : ℚ) (hq : 0 < quantity)
    (hinv : positionsPositive s) :
    positionsPositive (_execute_buy s symbol quantity price balance).2 := by
  unfold _execute_buy
  by_cases hc : (quantity : ℚ) * price > balance
  · rw [if_pos hc]; exact hinv
  · rw [if_neg hc]
    cases hpos : get_position s symbol with
    | none =>
      simp only [hpos, _log_trade, update_balance]
      intro p hp
      rcases List.mem_append.mp hp with h | h
      · exact hinv p h
      · rw [List.mem_singleton] at h
        subst h
        show (0 : ℚ) < (quantity : ℚ)
        exact_mod_cast hq
    | some position =>
      simp only [hpos, _log_trade, update_balance]
      intro p hp
      rcases mem_setPositionAll hp with h | h
      · exact hinv p h
      · rw [h]
        obtain ⟨k, hk⟩ := lookupPos_mem s.positions symbol position hpos
        have h1 : 0 < position.quantity := hinv (k, position) hk
        have h2 : (0 : ℚ) < (quantity : ℚ) := by exact_mod_cast hq
        show (0 : ℚ) < position.quantity + (quantity : ℚ)
        linarith

theorem execute_sell_preserves_positive (s : TradingState) (symbol : String)
    (quantity : ℤ) (price balance : ℚ) (hinv : positionsPositive s) :
    positionsPositive (_execute_sell s symbol quantity price balance).2 := by
  unfold _execute_sell
  cases hpos : get_position s symbol with
  | none => exact hinv
  | some position =>
    dsimp only
    by_cases hq : (quantity : ℚ) > position.quantity
    · rw [if_pos hq]; exact hinv
    · rw [if_neg hq]
      by_cases hz : position.quantity - (quantity : ℚ) = 0
      · rw [if_pos hz]
        simp only [_log_trade, update_balance]
        intro p hp
        exact hinv p (mem_deletePosition hp)
      · rw [if_neg hz]
        simp only [_log_trade, update_balance]
        intro p hp
        rcases mem_setPositionQty hp with h | h
        · exact hinv p h
        · rw [h]
          obtain ⟨k, hk⟩ := lookupPos_mem s.positions symbol position hpos
          have h1 : 0 < position.quantity := hinv (k, position) hk
          have h2 : (quantity : ℚ) ≤ position.quantity := not_lt.mp hq
          exact lt_of_le_of_ne (sub_nonneg.mpr h2) (Ne.symm hz)

/-- C5: the strictly-positive-quantity invariant of the positions table (no
row with quantity 0 exists) is preserved by `place_order` for every
contract-conforming (positive) order quantity and by `reset_account`, and a
successful SELL of exactly the full held quantity deletes the position row
rather than storing quantity 0. -/
theorem position_deletion_invariant :
    (∀ (market : MarketData) (s : TradingState) (symbol : String) (quantity : ℤ)
       (order_type : String), 0 < quantity → positionsPositive s →
       positionsPositive (place_order market s symbol quantity order_type).2) ∧
    (∀ (s : TradingState) (sb : ℚ), positionsPositive (reset_account s sb)) ∧
    (∀ (market : MarketData) (s : TradingState) (symbol : String) (quantity : ℤ)
       (price : ℚ) (position : Position),
       get_position s symbol = some position →
       get_current_price market symbol = some price → price ≠ 0 →
       (quantity : ℚ) = position.quantity →
       get_position (place_order market s symbol quantity "SELL").2 symbol = none) := by
  refine ⟨?_, ?_, ?_⟩
  · intro market s symbol quantity order_type hq hinv
    unfold place_order
    cases hp : get_current_price market symbol with
    | none => exact hinv
    | some price =>
      dsimp only
      by_cases hz : price = 0
      · rw [if_pos hz]; exact hinv
      · rw [if_neg hz]
        by_cases hb : upper order_type = "BUY"
        · rw [if_pos hb]
          exact execute_buy_preserves_positive s symbol quantity price s.balance hq hinv
        · rw [if_neg hb]
          by_cases hsell : upper order_type = "SELL"
          · rw [if_pos hsell]
            exact execute_sell_preserves_positive s symbol quantity price s.balance hinv
          · rw [if_neg hsell]; exact hinv
  · intro s sb p hp
    simp [reset_account] at hp
  · intro market s symbol quantity price position hpos hp hz hfull
    unfold place_order
    simp only [hp, if_neg hz, upper_sell, if_neg (by decide : ¬("SELL" : String) = "BUY"),
      if_pos rfl]
    have hqty : ¬((quantity : ℚ) > position.quantity) := by
      rw [hfull]; exact lt_irrefl _
    have hnz : position.quantity - (quantity : ℚ) = 0 := by
      rw [hfull]; exact sub_self _
    have hpos' : lookupPos s.positions symbol = some position := hpos
    simp only [_execute_sell, hpos', if_neg hqty, if_pos hnz, _log_trade, update_balance,
      get_position]
    exact lookupPos_deletePosition _ _

/-- C5 witness: selling the full holding of 3 shares deletes the position
row in a concrete state. -/
theorem position_deletion_invariant_witness :
    get_position
      (place_order [("AAPL", 100)] ⟨500, 500, [("AAPL", ⟨3, 50⟩)], []⟩ "AAPL" 3 "SELL").2
      "AAPL" = none :=
  position_deletion_invariant.2.2 [("AAPL", 100)] ⟨500, 500, [("AAPL", ⟨3, 50⟩)], []⟩
    "AAPL" 3 100 ⟨3, 50⟩ rfl rfl (by norm_num) (by norm_num)

/-- C6 counterexample: with one open position of 1 share at average cost 50
and no market-data row for the symbol, `get_performance` reports
`positions_value = 0` — the position is skipped, not valued at the claimed
average-cost fallback `1 * 50`. -/
theorem get_performance_no_fallback_counterexample :
    (get_performance [] ⟨100, 100, [("AAPL", ⟨1, 50⟩)], []⟩).positions_value = 0 ∧
    (get_performance [] ⟨100, 100, [("AAPL", ⟨1, 50⟩)], []⟩).positions_value ≠
      (1 : ℚ) * 50 := by
  norm_num [get_performance, get_current_price, lookupPrice]

/-- C6 (amended): `get_performance` sums `quantity * current_price` over the
positions that have a truthy latest close; a position with no market-data row
or with a latest close of exactly 0 contributes 0 (it is skipped, not valued
at average cost); `total_value = cash_balance + positions_value`,
`total_return = total_value - starting_balance`, and `return_pct =
total_return / starting_balance * 100` when `starting_balance > 0`, else 0. -/
theorem get_performance_snapshot (market : MarketData) (s : TradingState) :
    (get_performance market s).cash_balance = s.balance ∧
    (get_performance market s).starting_balance = s.starting_balance ∧
    (get_performance market s).positions_value =
      (s.positions.map (perfContribution market)).sum ∧
    (∀ p : String × Position, get_current_price market p.1 = none →
      perfContribution market p = 0) ∧
    (∀ p : String × Position, get_current_price market p.1 = some 0 →
      perfContribution market p = 0) ∧
    (∀ (p : String × Position) (price : ℚ), get_current_price market p.1 = some price →
      price ≠ 0 → perfContribution market p = p.2.quantity * price) ∧
    (get_performance market s).total_value =
      s.balance + (get_performance market s).positions_value ∧
    (get_performance market s).total_return =
      (get_performance market s).total_value - s.starting_balance ∧
    (get_performance market s).return_pct =
      (if s.starting_balance > 0 then
        (get_performance market s).total_return / s.starting_balance * 100 else 0) ∧
    (get_performance market s).num_positions = s.positions.length := by
  refine ⟨rfl, rfl, ?_, ?_, ?_, ?_, rfl, rfl, rfl, rfl⟩
  · simp only [get_performance]
    simpa using get_performance_foldl market s.positions 0
  · intro p h
    simp [perfContribution, h]
  · intro p h
    simp [perfContribution, h]
  · intro p price h hz
    simp [perfContribution, h, hz]

/-- C6 witness: the no-price contribution rule applied to a concrete position
with an empty market-data store. -/
theorem get_performance_snapshot_witness :
    perfContribution [] ("AAPL", ⟨1, 50⟩) = 0 :=
  (get_performance_snapshot [] ⟨100, 100, [("AAPL", ⟨1, 50⟩)], []⟩).2.2.2.1
    ("AAPL", ⟨1, 50⟩) rfl

/-- C10: a symbol whose most recent stored close is exactly 0 is treated by
`place_order` as having no price data (the row exists but `0.0` is falsy),
for every quantity and order type; and `calculate_position_value` for such a
symbol substitutes the position's average cost as the current price,
reporting an unrealized P&L of 0. -/
theorem zero_price_edge :
    (∀ (market : MarketData) (s : TradingState) (symbol : String) (quantity : ℤ)
       (order_type : String), get_current_price market symbol = some 0 →
       place_order market s symbol quantity order_type = (.noPriceData symbol, s)) ∧
    (∀ (market : MarketData) (positions : List (String × Position)) (symbol : String)
       (position : Position), lookupPos positions symbol = some position →
       lookupPrice market symbol = some 0 →
       ∃ pv : PositionValue,
         calculate_position_value market positions symbol = some pv ∧
         pv.current_price = position.average_cost ∧ pv.unrealized_pl = 0) := by
  constructor
  · intro market s symbol quantity order_type h
    unfold place_order
    rw [h]
    simp
  · intro market positions symbol position hpos hprice
    unfold calculate_position_value
    rw [hpos, hprice]
    dsimp only
    refine ⟨_, rfl, ?_, ?_⟩
    · simp
    · simp

/-- C10 witness: a BUY on a symbol whose latest stored close is 0 fails with
no price data and leaves the state unchanged. -/
theorem zero_price_edge_witness :
    place_order [("AAPL", 0)] ⟨10000, 10000, [], []⟩ "AAPL" 5 "BUY"
      = (.noPriceData "AAPL", ⟨10000, 10000, [], []⟩) :=
  zero_price_edge.1 [("AAPL", 0)] ⟨10000, 10000, [], []⟩ "AAPL" 5 "BUY" rfl

/-! Block-level lemmas for the signal detector: each block only ever emits
its own indicator tags. -/

theorem mem_rsiSignals_indicator {sg : Signal} {latest : IndicatorRow}
    (h : sg ∈ rsiSignals latest) :
    sg.indicator = .RSI_OVERSOLD ∨ sg.indicator = .RSI_OVERBOUGHT := by
  unfold rsiSignals at h
  rcases hr : latest.rsi with _ | r <;> simp only [hr] at h
  · exact absurd h (List.not_mem_nil sg)
  · split_ifs at h <;> simp_all

theorem mem_macdSignals_indicator {sg : Signal} {latest : IndicatorRow}
    {previous : Option IndicatorRow} (h : sg ∈ macdSignals latest previous) :
    sg.indicator = .MACD_CROSS_BULLISH ∨ sg.indicator = .MACD_CROSS_BEARISH := by
  unfold macdSignals at h
  split at h
  · simp at h
  · split at h
    · split_ifs at h <;> simp_all
    · simp at h

theorem mem_maSignals_indicator {sg : Signal} {latest : IndicatorRow}
    {previous : Option IndicatorRow} (h : sg ∈ maSignals latest previous) :
    sg.indicator = .MA_GOLDEN_CROSS ∨ sg.indicator = .MA_DEATH_CROSS := by
  unfold maSignals at h
  split at h
  · simp at h
  · split at h
    · split_ifs at h <;> simp_all
    · simp at h

theorem mem_bbSignals_indicator {sg : Signal} {latest : IndicatorRow}
    (h : sg ∈ bbSignals latest) :
    sg.indicator = .BB_OVERSOLD ∨ sg.indicator = .BB_OVERBOUGHT := by
  unfold bbSignals at h
  split at h
  · split_ifs at h <;> simp_all
  · simp at h

/-- C7 counterexample: an RSI of exactly 0 is strictly below 30, yet
`find_signals` emits no signal at all, because Python's `if rsi and rsi < 30`
is false for the falsy value `0.0`. -/
theorem rsi_zero_counterexample :
    (0 : ℚ) < 30 ∧
    find_signals ⟨some 0, none, none, none, none, none, none, 10⟩ none = [] := by
  constructor
  · norm_num
  · norm_num [find_signals, rsiSignals, macdSignals, maSignals, bbSignals]

/-- C7 (amended): with the latest RSI present, `find_signals` emits a
BUY/RSI_OVERSOLD signal with strength `(30 - rsi)/30 * 100` exactly when the
RSI is nonzero (Python truthiness) and strictly below 30, emits a
SELL/RSI_OVERBOUGHT signal with strength `(rsi - 70)/30 * 100` exactly when
the RSI is strictly above 70, and in particular emits no RSI signal when the
RSI equals exactly 30 or 70. -/
theorem rsi_signal_boundary (latest : IndicatorRow) (previous : Option IndicatorRow)
    (r : ℚ) (hr : latest.rsi = some r) :
    ((∃ sg ∈ find_signals latest previous, sg.indicator = .RSI_OVERSOLD) ↔
      r ≠ 0 ∧ r < 30) ∧
    (r ≠ 0 → r < 30 →
      (⟨.BUY, .RSI_OVERSOLD, (30 - r) / 30 * 100, r⟩ : Signal) ∈
        find_signals latest previous) ∧
    ((∃ sg ∈ find_signals latest previous, sg.indicator = .RSI_OVERBOUGHT) ↔ r > 70) ∧
    (r > 70 →
      (⟨.SELL, .RSI_OVERBOUGHT, (r - 70) / 30 * 100, r⟩ : Signal) ∈
        find_signals latest previous) := by
  have hrsi : rsiSignals latest =
      (if r ≠ 0 ∧ r < 30 then [⟨.BUY, .RSI_OVERSOLD, (30 - r) / 30 * 100, r⟩]
       else if r ≠ 0 ∧ r > 70 then [⟨.SELL, .RSI_OVERBOUGHT, (r - 70) / 30 * 100, r⟩]
       else []) := by
    unfold rsiSignals
    rw [hr]
  have honly : ∀ sg : Signal, sg ∈ macdSignals latest previous ∨
      sg ∈ maSignals latest previous ∨ sg ∈ bbSignals latest →
      sg.indicator ≠ .RSI_OVERSOLD ∧ sg.indicator ≠ .RSI_OVERBOUGHT := by
    intro sg hsg
    rcases hsg with h | h | h
    · rcases mem_macdSignals_indicator h with h' | h' <;> simp [h']
    · rcases mem_maSignals_indicator h with h' | h' <;> simp [h']
    · rcases mem_bbSignals_indicator h with h' | h' <;> simp [h']
  refine ⟨⟨?_, ?_⟩, ?_, ⟨?_, ?_⟩, ?_⟩
  · rintro ⟨sg, hmem, hind⟩
    simp only [find_signals, List.mem_append] at hmem
    rcases hmem with ((hmem | hmem) | hmem) | hmem
    · rw [hrsi] at hmem
      split_ifs at hmem with h1 h2
      · exact h1
      · rw [List.mem_singleton] at hmem
        rw [hmem] at hind
        simp at hind
      · simp at hmem
    · exact absurd hind (honly sg (Or.inl hmem)).1
    · exact absurd hind (honly sg (Or.inr (Or.inl hmem))).1
    · exact absurd hind (honly sg (Or.inr (Or.inr hmem))).1
  · rintro ⟨h0, h30⟩
    refine ⟨⟨.BUY, .RSI_OVERSOLD, (30 - r) / 30 * 100, r⟩, ?_, rfl⟩
    simp only [find_signals, List.mem_append]
    left; left; left
    rw [hrsi, if_pos ⟨h0, h30⟩]
    simp
  · intro h0 h30
    simp only [find_signals, List.mem_append]
    left; left; left
    rw [hrsi, if_pos ⟨h0, h30⟩]
    simp
  · rintro ⟨sg, hmem, hind⟩
    simp only [find_signals, List.mem_append] at hmem
    rcases hmem with ((hmem | hmem) | hmem) | hmem
    · rw [hrsi] at hmem
      split_ifs at hmem with h1 h2
      · rw [List.mem_singleton] at hmem
        rw [hmem] at hind
        simp at hind
      · exact h2.2
      · simp at hmem
    · exact absurd hind (honly sg (Or.inl hmem)).2
    · exact absurd hind (honly sg (Or.inr (Or.inl hmem))).2
    · exact absurd hind (honly sg (Or.inr (Or.inr hmem))).2
  · intro h70
    have h0 : r ≠ 0 := by
      intro h
      rw [h] at h70
      norm_num at h70
    refine ⟨⟨.SELL, .RSI_OVERBOUGHT, (r - 70) / 30 * 100, r⟩, ?_, rfl⟩
    simp only [find_signals, List.mem_append]
    left; left; left
    rw [hrsi, if_neg (by intro hc; linarith [hc.2]), if_pos ⟨h0, h70⟩]
    simp
  · intro h70
    have h0 : r ≠ 0 := by
      intro h
      rw [h] at h70
      norm_num at h70
    simp only [find_signals, List.mem_append]
    left; left; left
    rw [hrsi, if_neg (by intro hc; linarith [hc.2]), if_pos ⟨h0, h70⟩]
    simp

/-- C7 witness: an RSI of 20 emits the oversold BUY signal with the claimed
strength in a concrete indicator row. -/
theorem rsi_signal_boundary_witness :
    (⟨.BUY, .RSI_OVERSOLD, ((30 : ℚ) - 20) / 30 * 100, 20⟩ : Signal) ∈
      find_signals ⟨some 20, none, none, none, none, none, none, 10⟩ none :=
  (rsi_signal_boundary ⟨some 20, none, none, none, none, none, none, 10⟩ none 20 rfl).2.1
    (by norm_num) (by norm_num)

/-- C8 counterexample: with lower band 100, upper band 200 and close 100, the
emitted Bollinger BUY signal has fixed strength 65; the claimed strength
`(lower - close)/lower * 100` equals 0 and appears in the `value` field
instead. -/
theorem bb_strength_counterexample :
    find_signals ⟨none, none, none, none, none, some 200, some 100, 100⟩ none
      = [⟨.BUY, .BB_OVERSOLD, 65, 0⟩] ∧
    (65 : ℚ) ≠ ((100 : ℚ) - 100) / 100 * 100 := by
  constructor
  · norm_num [find_signals, rsiSignals, macdSignals, maSignals, bbSignals]
  · norm_num

/-- C8 (amended): with both Bollinger bands present and nonzero, a latest
close at most `1.01 × lower` makes `find_signals` emit a BUY (oversold)
signal with fixed strength 65 whose `value` field is `(lower - close)/lower *
100`; otherwise a close at least `0.99 × upper` makes it emit a SELL
(overbought) signal with strength 65 and `value = (close - upper)/upper *
100`. -/
theorem bb_signal_fields (latest : IndicatorRow) (previous : Option IndicatorRow)
    (bbu bbl : ℚ) (hu : latest.bb_upper = some bbu) (hl : latest.bb_lower = some bbl)
    (hu0 : bbu ≠ 0) (hl0 : bbl ≠ 0) :
    (latest.close ≤ bbl * 1.01 →
      (⟨.BUY, .BB_OVERSOLD, 65, (bbl - latest.close) / bbl * 100⟩ : Signal) ∈
        find_signals latest previous) ∧
    (¬(latest.close ≤ bbl * 1.01) → latest.close ≥ bbu * 0.99 →
      (⟨.SELL, .BB_OVERBOUGHT, 65, (latest.close - bbu) / bbu * 100⟩ : Signal) ∈
        find_signals latest previous) := by
  have hbb : bbSignals latest =
      (if bbu ≠ 0 ∧ bbl ≠ 0 then
        (if latest.close ≤ bbl * 1.01 then
          [⟨.BUY, .BB_OVERSOLD, 65, (bbl - latest.close) / bbl * 100⟩]
        else if latest.close ≥ bbu * 0.99 then
          [⟨.SELL, .BB_OVERBOUGHT, 65, (latest.close - bbu) / bbu * 100⟩]
        else [])
      else []) := by
    unfold bbSignals
    rw [hu, hl]
  constructor
  · intro hle
    simp only [find_signals, List.mem_append]
    right
    rw [hbb, if_pos ⟨hu0, hl0⟩, if_pos hle]
    simp
  · intro hnle hge
    simp only [find_signals, List.mem_append]
    right
    rw [hbb, if_pos ⟨hu0, hl0⟩, if_neg hnle, if_pos hge]
    simp

/-- C8 witness: the oversold branch applied to a concrete indicator row with
lower band 100, upper band 200 and close 100. -/
theorem bb_signal_fields_witness :
    (⟨.BUY, .BB_OVERSOLD, 65, ((100 : ℚ) - 100) / 100 * 100⟩ : Signal) ∈
      find_signals ⟨none, none, none, none, none, some 200, some 100, 100⟩ none :=
  (bb_signal_fields ⟨none, none, none, none, none, some 200, some 100, 100⟩ none 200 100
    rfl rfl (by norm_num) (by norm_num)).1 (by norm_num)

end StarkMatter
